import Mathlib

/-!
Verification of the ff-word-game server actions (src/unnamed/part_001, first
variant, lines 1-588): the guess state machine (`submitGuess`, `validateWord`),
the game-state accessors (`initializeGame`, `getUserGameState`), and the daily
puzzle generator (`getTodaysPuzzle`, `generateDailyPuzzle`, `findBracketWord`).

Words are Lean `String`s.  JavaScript compares strings with `<` / `<=` by code
units; we model this with `strLt` / `strLe`, lexicographic comparison of the
underlying character lists (which agrees with Mathlib's order on `String`).
The external store (Supabase) is modelled by explicit data (`DB`, the
`UserGame` row) threaded through the functions; updates are modelled as
applied to the row (the "Failed to update game" transport-failure paths are
outside the model).  Each `Math.random()` draw is an arbitrary `Nat`
parameter used modulo the relevant length, and the `sort(() => Math.random()
- 0.5)` shuffle is an arbitrary function parameter.  Row ids are modelled as
`Nat`.
-/

namespace WordGame

/-- JS string comparison `a < b` (code-unit lexicographic): lexicographic
order on the underlying character lists. -/
def strLt (a b : String) : Prop := a.data < b.data

instance instDecStrLt (a b : String) : Decidable (strLt a b) :=
  inferInstanceAs (Decidable (a.data < b.data))

/-- JS string comparison `a <= b`, i.e. `¬ (b < a)`. -/
def strLe (a b : String) : Prop := ¬ strLt b a

instance instDecStrLe (a b : String) : Decidable (strLe a b) :=
  inferInstanceAs (Decidable (¬ strLt b a))

/-- JS `String.prototype.toLowerCase` on the ASCII letters used by the game:
lower-cases every character (via `Char.toLower`, the basic-latin lowering). -/
def lower (s : String) : String := ⟨s.data.map Char.toLower⟩

/-- JS `String.prototype.toUpperCase` on the ASCII letters used by the game. -/
def upper (s : String) : String := ⟨s.data.map Char.toUpper⟩

/-- The `GameState` interface returned to the UI (part_001 lines 8-17).
`guessDirections` and `secretWord` are optional fields. -/
structure GameState where
  id : Nat
  currentTop : String
  currentBottom : String
  guesses : List String
  guessDirections : Option (List String)
  completed : Bool
  won : Bool
  secretWord : Option String
deriving DecidableEq

/-- A `user_games` row.  `guessDirections` is nullable in the store (the code
reads it as `userGame.guessDirections || []`).  `completed` and `won` are
created with the store's defaults (`false`: a fresh game is in progress). -/
structure UserGame where
  id : Nat
  currentTop : String
  currentBottom : String
  guesses : List String
  guessDirections : Option (List String)
  completed : Bool
  won : Bool
deriving DecidableEq

/-- A `{success, message}` result as returned by `validateWord`. -/
structure ActionResult where
  success : Bool
  message : String
deriving DecidableEq

/-- A `{success, message, newState?}` result as returned by `submitGuess`. -/
structure SubmitResult where
  success : Bool
  message : String
  newState : Option GameState
deriving DecidableEq

/-- Embeds `validateWord` (part_001 lines 387-418).  `wordListMem` models membership
in the bundled `wordList`, `dictMem` membership in the store's `dictionary`
table; the code checks the word list first and falls back to the store. -/
def validateWord (guess : String) (wordListMem dictMem : String → Bool) : ActionResult :=
  if guess.length ≠ 5 then
    { success := false, message := "Guess must be 5 letters" }
  else
    let guessLower := lower guess
    let isInWordList := wordListMem guessLower
    let isValidWord := isInWordList || dictMem guessLower
    if !isValidWord then
      { success := false, message := "Word not in dictionary" }
    else
      { success := true, message := "Valid word" }

/-- The boundary-violation message for a guess at or below the top bound. -/
def boundaryAfterMsg (currentTop : String) : String :=
  "Your guess must come after \"" ++ upper currentTop ++ "\" alphabetically"

/-- The boundary-violation message for a guess at or above the bottom bound. -/
def boundaryBeforeMsg (currentBottom : String) : String :=
  "Your guess must come before \"" ++ upper currentBottom ++ "\" alphabetically"

/-- Embeds `submitGuess` (part_001 lines 420-588), from the point where the session,
puzzle and game row have been found: `userGame` is the fetched row and
`secretRaw` the secret word joined from `daily_puzzles`.  Returns the
`{success, message, newState?}` response together with the `user_games` row
as left in the store (unchanged whenever the request fails). -/
def submitGuess (guess : String) (skipValidation : Bool)
    (wordListMem dictMem : String → Bool)
    (userGame : UserGame) (secretRaw : String) : SubmitResult × UserGame :=
  let guessLower := lower guess
  if guess.length ≠ 5 then
    ({ success := false, message := "Guess must be 5 letters", newState := none }, userGame)
  else if !skipValidation && !(validateWord guess wordListMem dictMem).success then
    ({ success := false, message := (validateWord guess wordListMem dictMem).message,
       newState := none }, userGame)
  else if userGame.completed then
    ({ success := false, message := "Game already completed", newState := none }, userGame)
  else
    let secretWord := lower secretRaw
    let currentTop := lower userGame.currentTop
    let currentBottom := lower userGame.currentBottom
    if strLe guessLower currentTop then
      ({ success := false, message := boundaryAfterMsg currentTop, newState := none }, userGame)
    else if strLe currentBottom guessLower then
      ({ success := false, message := boundaryBeforeMsg currentBottom, newState := none }, userGame)
    else if guessLower = secretWord then
      let newDirections := userGame.guessDirections.getD [] ++ ["win"]
      let updatedGame : UserGame :=
        { userGame with
          guesses := userGame.guesses ++ [guess]
          guessDirections := some newDirections
          completed := true
          won := true }
      ({ success := true, message := "Congratulations! You guessed the word!",
         newState := some
           { id := updatedGame.id
             currentTop := updatedGame.currentTop
             currentBottom := updatedGame.currentBottom
             guesses := updatedGame.guesses
             guessDirections := updatedGame.guessDirections
             completed := updatedGame.completed
             won := updatedGame.won
             secretWord := some secretRaw } }, updatedGame)
    else
      let newTop := if strLt guessLower secretWord then guessLower else currentTop
      let newBottom :=
        if strLt guessLower secretWord then currentBottom
        else if strLt secretWord guessLower then guessLower
        else currentBottom
      let direction :=
        if strLt guessLower secretWord then "up"
        else if strLt secretWord guessLower then "down"
        else ""
      let newDirections := userGame.guessDirections.getD [] ++ [direction]
      let updatedGame : UserGame :=
        { userGame with
          currentTop := newTop
          currentBottom := newBottom
          guesses := userGame.guesses ++ [guess]
          guessDirections := some newDirections }
      ({ success := true, message := "",
         newState := some
           { id := updatedGame.id
             currentTop := updatedGame.currentTop
             currentBottom := updatedGame.currentBottom
             guesses := updatedGame.guesses
             guessDirections := updatedGame.guessDirections
             completed := updatedGame.completed
             won := updatedGame.won
             secretWord := none } }, updatedGame)

/-! ### Order facts about `strLt` / `strLe` -/

theorem strLt_iff_lt (a b : String) : strLt a b ↔ a < b :=
  String.lt_iff_toList_lt.symm

theorem strLe_iff_le (a b : String) : strLe a b ↔ a ≤ b := by
  unfold strLe
  rw [strLt_iff_lt, not_lt]

theorem strLt_trichotomy (a b : String) : strLt a b ∨ a = b ∨ strLt b a := by
  rw [strLt_iff_lt, strLt_iff_lt]
  exact lt_trichotomy a b

theorem strLt_irrefl (a : String) : ¬ strLt a a := by
  rw [strLt_iff_lt]
  exact lt_irrefl a

theorem strLt_asymm {a b : String} (h : strLt a b) : ¬ strLt b a := by
  rw [strLt_iff_lt] at h ⊢
  exact lt_asymm h

theorem not_strLe {a b : String} : ¬ strLe a b ↔ strLt b a := by
  unfold strLe
  exact not_not

theorem strLt_ne {a b : String} (h : strLt a b) : a ≠ b := by
  rw [strLt_iff_lt] at h
  exact ne_of_lt h

/-! ### Lower-casing -/

theorem toNat_ofNat_of_valid {n : Nat} (h : n.isValidChar) : (Char.ofNat n).toNat = n := by
  rw [Char.ofNat, dif_pos h]
  rfl

theorem toLower_toLower (c : Char) : c.toLower.toLower = c.toLower := by
  unfold Char.toLower
  by_cases h : c.toNat ≥ 65 ∧ c.toNat ≤ 90
  · rw [if_pos h]
    have hv : (c.toNat + 32).isValidChar := Or.inl (by omega)
    rw [toNat_ofNat_of_valid hv]
    rw [if_neg (by omega)]
  · rw [if_neg h, if_neg h]

theorem lower_idem (s : String) : lower (lower s) = lower s := by
  unfold lower
  simp only [List.map_map]
  congr 1
  exact List.map_congr_left fun c _ => toLower_toLower c

/-! ### Puzzle data and the game-state accessors -/

/-- The `DailyPuzzleData` interface (part_001 lines 19-24). -/
structure DailyPuzzleData where
  id : Nat
  date : String
  topWord : String
  bottomWord : String
deriving DecidableEq

/-- The shared tail of `initializeGame` and `getUserGameState` (part_001
lines 310-334 and 359-383): build the returned `GameState` from a row,
fetching the secret word (`secretLookup`) only when the game is completed. -/
def gameStateOf (userGame : UserGame) (secretLookup : Option String) : GameState :=
  { id := userGame.id
    currentTop := userGame.currentTop
    currentBottom := userGame.currentBottom
    guesses := userGame.guesses
    guessDirections := userGame.guessDirections
    completed := userGame.completed
    won := userGame.won
    secretWord := if userGame.completed then secretLookup else none }

/-- The fresh `user_games` row inserted by `initializeGame` (part_001 lines
288-308): bounds copied from the puzzle, no guesses; `guessDirections` is
absent and `completed` / `won` take the store defaults. -/
def initialUserGame (newId : Nat) (puzzle : DailyPuzzleData) : UserGame :=
  { id := newId
    currentTop := puzzle.topWord
    currentBottom := puzzle.bottomWord
    guesses := []
    guessDirections := none
    completed := false
    won := false }

/-- Embeds `initializeGame` (part_001 lines 268-335) from the point where the puzzle
is known: reuse the existing row for this session and puzzle, or insert a
fresh one. -/
def initializeGame (existing : Option UserGame) (newId : Nat)
    (puzzle : DailyPuzzleData) (secretLookup : Option String) : Option GameState :=
  let userGame :=
    match existing with
    | some g => g
    | none => initialUserGame newId puzzle
  some (gameStateOf userGame secretLookup)

/-- Embeds `getUserGameState` (part_001 lines 337-384): `none` without a session
cookie or an existing row. -/
def getUserGameState (sessionId : Option Nat) (existing : Option UserGame)
    (secretLookup : Option String) : Option GameState :=
  match sessionId with
  | none => none
  | some _ =>
    match existing with
    | none => none
    | some userGame => some (gameStateOf userGame secretLookup)

/-! ### The store and the puzzle generator -/

/-- A `secret_words` row. -/
structure SecretWordRow where
  id : Nat
  word : String
  used : Bool
deriving DecidableEq

/-- A `daily_puzzles` row. -/
structure DailyPuzzleRow where
  id : Nat
  date : String
  topWord : String
  bottomWord : String
  secretWordId : Nat
deriving DecidableEq

/-- The tables the generator touches, plus the id the store would assign to
the next inserted puzzle row. -/
structure DB where
  secretWords : List SecretWordRow
  dictionary : List String
  dailyPuzzles : List DailyPuzzleRow
  nextPuzzleId : Nat
deriving DecidableEq

/-- Insert into a sorted list (auxiliary for `orderBy`). -/
def insertOrdered (le : α → α → Bool) (x : α) : List α → List α
  | [] => [x]
  | y :: ys => if le x y then x :: y :: ys else y :: insertOrdered le x ys

/-- Insertion sort, modelling the store's `ORDER BY` on a query result. -/
def orderBy (le : α → α → Bool) : List α → List α
  | [] => []
  | x :: xs => insertOrdered le x (orderBy le xs)

theorem mem_insertOrdered {le : α → α → Bool} {x a : α} :
    ∀ {l : List α}, a ∈ insertOrdered le x l ↔ a = x ∨ a ∈ l
  | [] => by simp [insertOrdered]
  | y :: ys => by
    unfold insertOrdered
    split
    · simp
    · rw [List.mem_cons, List.mem_cons, mem_insertOrdered]
      tauto

theorem mem_orderBy {le : α → α → Bool} {a : α} :
    ∀ {l : List α}, a ∈ orderBy le l ↔ a ∈ l
  | [] => Iff.rfl
  | x :: xs => by
    unfold orderBy
    rw [mem_insertOrdered, List.mem_cons, mem_orderBy]

/-- The `dictionary` query feeding the top bracket (part_001 lines 134-139):
words strictly below `w`, ordered descending, first 1000. -/
def topWordsFor (dictionary : List String) (w : String) : List String :=
  (orderBy (fun a b => decide (strLe b a)) (dictionary.filter fun x => decide (strLt x w))).take 1000

/-- The `dictionary` query feeding the bottom bracket (part_001 lines
141-146): words strictly above `w`, ordered ascending, first 1000. -/
def bottomWordsFor (dictionary : List String) (w : String) : List String :=
  (orderBy (fun a b => decide (strLe a b)) (dictionary.filter fun x => decide (strLt w x))).take 1000

theorem mem_topWordsFor {dictionary : List String} {w x : String}
    (h : x ∈ topWordsFor dictionary w) : strLt x w := by
  unfold topWordsFor at h
  have hx := List.mem_of_mem_take h
  rw [mem_orderBy, List.mem_filter] at hx
  exact of_decide_eq_true hx.2

theorem mem_bottomWordsFor {dictionary : List String} {w x : String}
    (h : x ∈ bottomWordsFor dictionary w) : strLt w x := by
  unfold bottomWordsFor at h
  have hx := List.mem_of_mem_take h
  rw [mem_orderBy, List.mem_filter] at hx
  exact of_decide_eq_true hx.2

/-- JS `charAt(0)` on the game's nonempty words: the first character (null
character for the empty string). -/
def firstChar (s : String) : Char := s.data.headD (Char.ofNat 0)

/-- One random array pick, `l[Math.floor(Math.random() * l.length)]`: the
draw `r` is an arbitrary natural, used modulo the length. -/
def randPick (l : List α) (dflt : α) (r : Nat) : α := l.getD (r % l.length) dflt

theorem randPick_mem (l : List α) (dflt : α) (r : Nat) (h : l ≠ []) :
    randPick l dflt r ∈ l := by
  unfold randPick
  have hlen : 0 < l.length := List.length_pos.mpr h
  rw [List.getD_eq_getElem l dflt (Nat.mod_lt r hlen)]
  exact List.getElem_mem _

/-- The `wordsByLetter` map of `findBracketWord` (part_001 lines 172-179),
read at one letter: the words whose first letter is `c`, in query order. -/
def wordsWithFirst (words : List String) (c : Char) : List String :=
  words.filter fun w => firstChar w == c

/-- The keys of the `wordsByLetter` map in insertion order: the first letters
of `words`, first occurrence first. -/
def mapKeys [DecidableEq α] : List α → List α
  | [] => []
  | x :: xs => x :: (mapKeys xs).filter fun y => decide (y ≠ x)

theorem mem_mapKeys [DecidableEq α] {a : α} :
    ∀ {l : List α}, a ∈ mapKeys l ↔ a ∈ l
  | [] => Iff.rfl
  | x :: xs => by
    unfold mapKeys
    rw [List.mem_cons, List.mem_cons]
    constructor
    · rintro (rfl | h)
      · exact Or.inl rfl
      · exact Or.inr (mem_mapKeys.mp (List.mem_of_mem_filter h))
    · rintro (rfl | h)
      · exact Or.inl rfl
      · by_cases hax : a = x
        · exact Or.inl hax
        · refine Or.inr (List.mem_filter.mpr ⟨mem_mapKeys.mpr h, ?_⟩)
          exact decide_eq_true hax

/-- The ideal-range target letters of `findBracketWord` (part_001 lines
181-202): first letters 2-4 places before (resp. after) the secret word's
first letter, kept within the latin alphabet. -/
def targetLetters (secretCharCode : Nat) (before : Bool) : List Char :=
  if before then
    (List.range' 2 3).filterMap fun off =>
      if 97 ≤ secretCharCode - off then some (Char.ofNat (secretCharCode - off)) else none
  else
    (List.range' 2 3).filterMap fun off =>
      if secretCharCode + off ≤ 122 then some (Char.ofNat (secretCharCode + off)) else none

/-- Embeds `findBracketWord` (part_001 lines 170-226).  `before` selects the
top-bracket direction; `rA` and `rB` are the two `Math.random()` draws of the
branch taken (letter pick, then word pick; the final fallback uses `rA`). -/
def findBracketWord (secretFirstLetter : Char) (words : List String) (before : Bool)
    (rA rB : Nat) : String :=
  let secretCharCode := secretFirstLetter.toNat
  let availableTargetLetters :=
    (targetLetters secretCharCode before).filter fun c => !(wordsWithFirst words c).isEmpty
  if availableTargetLetters.isEmpty = false then
    let selectedLetter := randPick availableTargetLetters (Char.ofNat 0) rA
    randPick (wordsWithFirst words selectedLetter) "" rB
  else
    let availableLetters :=
      (mapKeys (words.map firstChar)).filter fun c => decide (c ≠ secretFirstLetter)
    if availableLetters.isEmpty = false then
      let selectedLetter := randPick availableLetters (Char.ofNat 0) rA
      randPick (wordsWithFirst words selectedLetter) "" rB
    else
      words.getD (rA % min words.length 100) ""

/-- The per-candidate sufficiency check of `generateDailyPuzzle` (part_001
line 149): at least 100 dictionary words on each side. -/
def candidateOk (dictionary : List String) (w : String) : Bool :=
  100 ≤ (topWordsFor dictionary w).length && 100 ≤ (bottomWordsFor dictionary w).length

/-- The `secret_words` update marking the chosen word used (part_001 lines
256-263). -/
def markUsed (rows : List SecretWordRow) (chosenId : Nat) : List SecretWordRow :=
  rows.map fun sw => if sw.id = chosenId then { sw with used := true } else sw

/-- What `generateDailyPuzzle` produces: the chosen secret row, the inserted
puzzle row, and the store afterwards. -/
structure GenResult where
  secret : SecretWordRow
  puzzle : DailyPuzzleRow
  db : DB
deriving DecidableEq

/-- Embeds `generateDailyPuzzle` (part_001 lines 114-266).  `shuffle` models
`sort(() => Math.random() - 0.5)`; `r1 r2` (`r3 r4`) are the random draws of
the top (bottom) bracket pick.  A JS `throw` is `Except.error` with the
thrown message. -/
def generateDailyPuzzle (dateStr : String)
    (shuffle : List SecretWordRow → List SecretWordRow)
    (r1 r2 r3 r4 : Nat) (db : DB) : Except String GenResult :=
  let unused := db.secretWords.filter fun sw => !sw.used
  if unused.isEmpty then Except.error "No unused secret words available"
  else
    match (shuffle unused).find? (fun c => candidateOk db.dictionary c.word) with
    | none => Except.error "No suitable secret words with enough surrounding words"
    | some secretWord =>
      let allTopWords := topWordsFor db.dictionary secretWord.word
      let allBottomWords := bottomWordsFor db.dictionary secretWord.word
      let topWord := findBracketWord (firstChar secretWord.word) allTopWords true r1 r2
      let bottomWord := findBracketWord (firstChar secretWord.word) allBottomWords false r3 r4
      let puzzle : DailyPuzzleRow :=
        { id := db.nextPuzzleId, date := dateStr, topWord := topWord,
          bottomWord := bottomWord, secretWordId := secretWord.id }
      Except.ok
        { secret := secretWord
          puzzle := puzzle
          db := { db with
                  dailyPuzzles := db.dailyPuzzles ++ [puzzle]
                  secretWords := markUsed db.secretWords secretWord.id
                  nextPuzzleId := db.nextPuzzleId + 1 } }

/-- The `daily_puzzles` lookup by date (part_001 lines 64-91). -/
def findPuzzleByDate (db : DB) (dateStr : String) : Option DailyPuzzleRow :=
  db.dailyPuzzles.find? fun p => p.date == dateStr

/-- Projection of a stored puzzle row to the returned `DailyPuzzleData`. -/
def puzzleData (p : DailyPuzzleRow) : DailyPuzzleData :=
  { id := p.id, date := p.date, topWord := p.topWord, bottomWord := p.bottomWord }

/-- Embeds `getTodaysPuzzle` (part_001 lines 48-112) at a fixed calendar day
`todayStr`: return the stored puzzle for the day, lazily generating it on
first request.  A generation `throw` propagates (the call is not wrapped in
`try`). -/
def getTodaysPuzzle (todayStr : String)
    (shuffle : List SecretWordRow → List SecretWordRow)
    (r1 r2 r3 r4 : Nat) (db : DB) : Except String (Option DailyPuzzleData × DB) :=
  match findPuzzleByDate db todayStr with
  | some puzzle => Except.ok (some (puzzleData puzzle), db)
  | none =>
    match generateDailyPuzzle todayStr shuffle r1 r2 r3 r4 db with
    | Except.error e => Except.error e
    | Except.ok res => Except.ok (some (puzzleData res.puzzle), res.db)

/-! ### Reachable game states -/

/-- The `user_games` rows reachable for a fixed puzzle whose bracket words
bracket the secret word: the fresh row inserted by `initializeGame`, closed
under successful `submitGuess` transitions. -/
inductive Reachable (wordListMem dictMem : String → Bool) (secretRaw : String) : UserGame → Prop where
  | init (newId : Nat) (puzzle : DailyPuzzleData)
      (htop : strLt (lower puzzle.topWord) (lower secretRaw))
      (hbot : strLt (lower secretRaw) (lower puzzle.bottomWord)) :
      Reachable wordListMem dictMem secretRaw (initialUserGame newId puzzle)
  | step (guess : String) (skipValidation : Bool) (s : UserGame)
      (prev : Reachable wordListMem dictMem secretRaw s)
      (hok : (submitGuess guess skipValidation wordListMem dictMem s secretRaw).1.success = true) :
      Reachable wordListMem dictMem secretRaw
        (submitGuess guess skipValidation wordListMem dictMem s secretRaw).2

/-! ### Claim theorems -/

theorem validateWord_success (guess : String) (wl dm : String → Bool)
    (hlen : guess.length = 5)
    (hdict : wl (lower guess) = true ∨ dm (lower guess) = true) :
    validateWord guess wl dm = { success := true, message := "Valid word" } := by
  rcases hdict with h | h <;> simp [validateWord, hlen, h]

/-- C1: a valid five-letter dictionary guess strictly inside the current
bounds succeeds, and exactly one of {top advances to the guess, bottom
advances to the guess, the game is won} happens, the untouched bound keeping
its value; `guesses` and `guessDirections` each grow by one element. -/
theorem submitGuess_in_bounds (guess : String) (wordListMem dictMem : String → Bool)
    (s : UserGame) (secretRaw : String)
    (hlen : guess.length = 5)
    (hdict : wordListMem (lower guess) = true ∨ dictMem (lower guess) = true)
    (hcomp : s.completed = false)
    (htopfix : lower s.currentTop = s.currentTop)
    (hbotfix : lower s.currentBottom = s.currentBottom)
    (hlt : strLt s.currentTop (lower guess))
    (hgt : strLt (lower guess) s.currentBottom) :
    (submitGuess guess false wordListMem dictMem s secretRaw).1.success = true ∧
    (let g := (submitGuess guess false wordListMem dictMem s secretRaw).2
     let topAdvances := g.currentTop = lower guess ∧ g.currentBottom = s.currentBottom ∧
       g.completed = false
     let bottomAdvances := g.currentTop = s.currentTop ∧ g.currentBottom = lower guess ∧
       g.completed = false
     let wins := g.completed = true ∧ g.won = true ∧ g.currentTop = s.currentTop ∧
       g.currentBottom = s.currentBottom
     (topAdvances ∧ ¬ bottomAdvances ∧ ¬ wins) ∨
     (¬ topAdvances ∧ bottomAdvances ∧ ¬ wins) ∨
     (¬ topAdvances ∧ ¬ bottomAdvances ∧ wins)) ∧
    (submitGuess guess false wordListMem dictMem s secretRaw).2.guesses.length =
      s.guesses.length + 1 ∧
    ((submitGuess guess false wordListMem dictMem s secretRaw).2.guessDirections.getD []).length =
      (s.guessDirections.getD []).length + 1 := by
  have hval := validateWord_success guess wordListMem dictMem hlen hdict
  have h4 : ¬ strLe (lower guess) s.currentTop := not_strLe.mpr hlt
  have h5 : ¬ strLe s.currentBottom (lower guess) := not_strLe.mpr hgt
  have htopne : s.currentTop ≠ lower guess := strLt_ne hlt
  have hbotne : lower guess ≠ s.currentBottom := strLt_ne hgt
  rcases strLt_trichotomy (lower guess) (lower secretRaw) with hc | hc | hc
  · have hne : lower guess ≠ lower secretRaw := strLt_ne hc
    simp [submitGuess, hlen, hval, hcomp, htopfix, hbotfix, h4, h5, hne, hc]
    exact fun h => absurd h.symm htopne
  · rw [hc] at h4 h5 htopne hbotne
    simp [submitGuess, hlen, hval, hcomp, htopfix, hbotfix, h4, h5, hc, htopne.symm, hbotne]
  · have hne : lower guess ≠ lower secretRaw := fun h => strLt_irrefl _ (h ▸ hc)
    have hnlt : ¬ strLt (lower guess) (lower secretRaw) := strLt_asymm hc
    simp [submitGuess, hlen, hval, hcomp, htopfix, hbotfix, h4, h5, hne, hnlt, hc]
    exact fun h => absurd h htopne

/-- Any successful `submitGuess` run passed the completion and bounds guards,
and the stored row is exactly one of the three updates (win, top advance,
bottom advance). -/
theorem submitGuess_success_cases (guess : String) (skip : Bool) (wl dm : String → Bool)
    (s : UserGame) (secretRaw : String)
    (hok : (submitGuess guess skip wl dm s secretRaw).1.success = true) :
    s.completed = false ∧
    strLt (lower s.currentTop) (lower guess) ∧
    strLt (lower guess) (lower s.currentBottom) ∧
    ((lower guess = lower secretRaw ∧
        (submitGuess guess skip wl dm s secretRaw).2 =
          { s with guesses := s.guesses ++ [guess]
                   guessDirections := some (s.guessDirections.getD [] ++ ["win"])
                   completed := true, won := true }) ∨
      (strLt (lower guess) (lower secretRaw) ∧
        (submitGuess guess skip wl dm s secretRaw).2 =
          { s with currentTop := lower guess, currentBottom := lower s.currentBottom
                   guesses := s.guesses ++ [guess]
                   guessDirections := some (s.guessDirections.getD [] ++ ["up"]) }) ∨
      (strLt (lower secretRaw) (lower guess) ∧
        (submitGuess guess skip wl dm s secretRaw).2 =
          { s with currentTop := lower s.currentTop, currentBottom := lower guess
                   guesses := s.guesses ++ [guess]
                   guessDirections := some (s.guessDirections.getD [] ++ ["down"]) })) := by
  simp only [submitGuess] at hok ⊢
  split_ifs at hok ⊢ with h1 h2 h3 h4 h5 h6 h7 h8 <;>
    simp_all only [not_strLe, ne_eq, not_true_eq_false, not_false_eq_true]
  · tauto
  · tauto
  · tauto
  · rcases strLt_trichotomy (lower guess) (lower secretRaw) with hc | hc | hc
    · exact absurd hc h7
    · exact absurd hc h6
    · exact absurd hc h8

theorem strLe_refl (a : String) : strLe a a := strLt_irrefl a

theorem strLe_of_strLt {a b : String} (h : strLt a b) : strLe a b := strLt_asymm h

/-- C2: a validated five-letter guess at or outside the current bounds is
rejected with one of the two boundary-violation messages, no new state is
returned, and the stored row is untouched. -/
theorem submitGuess_out_of_bounds (guess : String) (wordListMem dictMem : String → Bool)
    (s : UserGame) (secretRaw : String)
    (hlen : guess.length = 5)
    (hdict : wordListMem (lower guess) = true ∨ dictMem (lower guess) = true)
    (hcomp : s.completed = false)
    (hbound : strLe (lower guess) (lower s.currentTop) ∨
      strLe (lower s.currentBottom) (lower guess)) :
    (submitGuess guess false wordListMem dictMem s secretRaw).1.success = false ∧
    ((submitGuess guess false wordListMem dictMem s secretRaw).1.message =
        boundaryAfterMsg (lower s.currentTop) ∨
      (submitGuess guess false wordListMem dictMem s secretRaw).1.message =
        boundaryBeforeMsg (lower s.currentBottom)) ∧
    (submitGuess guess false wordListMem dictMem s secretRaw).1.newState = none ∧
    (submitGuess guess false wordListMem dictMem s secretRaw).2 = s := by
  have hval := validateWord_success guess wordListMem dictMem hlen hdict
  rcases hbound with hb | hb
  · simp [submitGuess, hlen, hval, hcomp, hb]
  · by_cases h1 : strLe (lower guess) (lower s.currentTop)
    · simp [submitGuess, hlen, hval, hcomp, h1]
    · simp [submitGuess, hlen, hval, hcomp, h1, hb]

/-- C3: every reachable row that is not completed keeps the secret word
strictly between its bounds (all compared lower-cased): the invariant holds
for the fresh row and is preserved by every successful guess. -/
theorem reachable_invariant (wordListMem dictMem : String → Bool) (secretRaw : String)
    (s : UserGame) (h : Reachable wordListMem dictMem secretRaw s) :
    s.completed = false →
    strLt (lower s.currentTop) (lower secretRaw) ∧
    strLt (lower secretRaw) (lower s.currentBottom) := by
  induction h with
  | init newId puzzle htop hbot => exact fun _ => ⟨htop, hbot⟩
  | step guess skipV s prev hok ih =>
    rcases submitGuess_success_cases guess skipV wordListMem dictMem s secretRaw hok with
      ⟨hcomp, _htop, _hbot, hcase⟩
    have hinv := ih hcomp
    rcases hcase with ⟨heq, hrow⟩ | ⟨hl, hrow⟩ | ⟨hg, hrow⟩ <;> rw [hrow] <;> intro hc
    · simp at hc
    · exact ⟨by simpa [lower_idem] using hl, by simpa [lower_idem] using hinv.2⟩
    · exact ⟨by simpa [lower_idem] using hinv.1, by simpa [lower_idem] using hg⟩

/-- C9: along any sequence of `submitGuess` transitions, `completed` implies
`won`: the only transition that completes a game is the winning one. -/
theorem reachable_completed_won (wordListMem dictMem : String → Bool) (secretRaw : String)
    (s : UserGame) (h : Reachable wordListMem dictMem secretRaw s) :
    s.completed = true → s.won = true := by
  induction h with
  | init newId puzzle htop hbot => intro hc; simp [initialUserGame] at hc
  | step guess skipV s prev hok ih =>
    rcases submitGuess_success_cases guess skipV wordListMem dictMem s secretRaw hok with
      ⟨hcomp, _htop, _hbot, hcase⟩
    rcases hcase with ⟨_, hrow⟩ | ⟨_, hrow⟩ | ⟨_, hrow⟩ <;> rw [hrow] <;> intro hc
    · rfl
    · simp [hcomp] at hc
    · simp [hcomp] at hc

/-- C10: a successful guess never widens the bracket, and every non-winning
successful guess strictly narrows exactly one side, the other side keeping
its value. -/
theorem submitGuess_shrinks (guess : String) (skipV : Bool)
    (wordListMem dictMem : String → Bool) (s : UserGame) (secretRaw : String)
    (htopfix : lower s.currentTop = s.currentTop)
    (hbotfix : lower s.currentBottom = s.currentBottom)
    (hok : (submitGuess guess skipV wordListMem dictMem s secretRaw).1.success = true) :
    strLe s.currentTop (submitGuess guess skipV wordListMem dictMem s secretRaw).2.currentTop ∧
    strLe (submitGuess guess skipV wordListMem dictMem s secretRaw).2.currentBottom
      s.currentBottom ∧
    ((submitGuess guess skipV wordListMem dictMem s secretRaw).2.completed = false →
      (strLt s.currentTop
          (submitGuess guess skipV wordListMem dictMem s secretRaw).2.currentTop ∧
        (submitGuess guess skipV wordListMem dictMem s secretRaw).2.currentBottom =
          s.currentBottom) ∨
      ((submitGuess guess skipV wordListMem dictMem s secretRaw).2.currentTop = s.currentTop ∧
        strLt (submitGuess guess skipV wordListMem dictMem s secretRaw).2.currentBottom
          s.currentBottom)) := by
  rcases submitGuess_success_cases guess skipV wordListMem dictMem s secretRaw hok with
    ⟨hcomp, htop, hbot, hcase⟩
  rw [htopfix] at htop
  rw [hbotfix] at hbot
  rcases hcase with ⟨heq, hrow⟩ | ⟨hl, hrow⟩ | ⟨hg, hrow⟩ <;> rw [hrow]
  · exact ⟨strLe_refl _, strLe_refl _, fun hc => by simp at hc⟩
  · exact ⟨strLe_of_strLt htop, by simpa [hbotfix] using strLe_refl s.currentBottom,
      fun _ => Or.inl ⟨htop, hbotfix⟩⟩
  · exact ⟨by simpa [htopfix] using strLe_refl s.currentTop, strLe_of_strLt hbot,
      fun _ => Or.inr ⟨htopfix, hbot⟩⟩

/-! ### Concrete data for the witnesses -/

/-- A concrete puzzle bracketing "bingo". -/
def demoPuzzle : DailyPuzzleData :=
  { id := 1, date := "2026-10-11", topWord := "apple", bottomWord := "chair" }

/-- A concrete in-progress game on `demoPuzzle`. -/
def demoGame : UserGame :=
  { id := 1, currentTop := "apple", currentBottom := "chair", guesses := [],
    guessDirections := some [], completed := false, won := false }

/-- An empty bundled word list. -/
def noWords : String → Bool := fun _ => false

/-- A concrete dictionary membership function. -/
def demoDictMem : String → Bool := fun w => w == "cabin" || w == "aaaaa" || w == "bingo"

theorem submitGuess_in_bounds_witness :
    (submitGuess "cabin" false noWords demoDictMem demoGame "bingo").1.success = true :=
  (submitGuess_in_bounds "cabin" noWords demoDictMem demoGame "bingo" (by decide)
    (Or.inr (by decide)) (by decide) (by decide) (by decide) (by decide) (by decide)).1

theorem submitGuess_out_of_bounds_witness :
    (submitGuess "aaaaa" false noWords demoDictMem demoGame "bingo").2 = demoGame :=
  (submitGuess_out_of_bounds "aaaaa" noWords demoDictMem demoGame "bingo" (by decide)
    (Or.inr (by decide)) (by decide) (Or.inl (by decide))).2.2.2

theorem reachable_invariant_witness :
    strLt (lower (initialUserGame 1 demoPuzzle).currentTop) (lower "bingo") ∧
    strLt (lower "bingo") (lower (initialUserGame 1 demoPuzzle).currentBottom) :=
  reachable_invariant noWords demoDictMem "bingo" (initialUserGame 1 demoPuzzle)
    (Reachable.init 1 demoPuzzle (by decide) (by decide)) (by decide)

theorem reachable_completed_won_witness :
    (submitGuess "bingo" true noWords demoDictMem (initialUserGame 1 demoPuzzle)
      "bingo").2.won = true :=
  reachable_completed_won noWords demoDictMem "bingo" _
    (Reachable.step "bingo" true (initialUserGame 1 demoPuzzle)
      (Reachable.init 1 demoPuzzle (by decide) (by decide)) (by decide))
    (by decide)

theorem submitGuess_shrinks_witness :
    strLe demoGame.currentTop
      (submitGuess "cabin" true noWords demoDictMem demoGame "bingo").2.currentTop :=
  (submitGuess_shrinks "cabin" true noWords demoDictMem demoGame "bingo"
    (by decide) (by decide) (by decide)).1

/-- C4 counterexample: in the spec scenario (top "apple", bottom "chair",
secret "bingo", guess "cabin") the code does NOT advance the top to "cabin"
with direction "up": "cabin" is greater than "bingo". -/
theorem cabin_scenario_counterexample :
    ¬ ((submitGuess "cabin" false noWords demoDictMem demoGame "bingo").2.currentTop = "cabin" ∧
       (submitGuess "cabin" false noWords demoDictMem demoGame "bingo").2.guessDirections =
         some ["up"]) := by decide

/-- C4 amended: since "bingo" < "cabin", the guess advances the bottom
bound: new bottom "cabin", appended direction "down", completed still false,
top unchanged at "apple". -/
theorem cabin_scenario_amended :
    (submitGuess "cabin" false noWords demoDictMem demoGame "bingo").1.success = true ∧
    (submitGuess "cabin" false noWords demoDictMem demoGame "bingo").2.currentTop = "apple" ∧
    (submitGuess "cabin" false noWords demoDictMem demoGame "bingo").2.currentBottom = "cabin" ∧
    (submitGuess "cabin" false noWords demoDictMem demoGame "bingo").2.guessDirections =
      some ["down"] ∧
    (submitGuess "cabin" false noWords demoDictMem demoGame "bingo").2.completed = false := by
  decide

/-- A successful generation stamps the requested date on the inserted row
and appends exactly that row to `daily_puzzles`. -/
theorem generateDailyPuzzle_ok (dateStr : String)
    (shuffle : List SecretWordRow → List SecretWordRow) (r1 r2 r3 r4 : Nat)
    (db : DB) (res : GenResult)
    (h : generateDailyPuzzle dateStr shuffle r1 r2 r3 r4 db = Except.ok res) :
    res.puzzle.date = dateStr ∧
    res.db.dailyPuzzles = db.dailyPuzzles ++ [res.puzzle] := by
  simp only [generateDailyPuzzle] at h
  split at h
  · exact absurd h (by simp)
  · split at h
    · exact absurd h (by simp)
    · cases h
      exact ⟨rfl, rfl⟩

/-- C5: if `getTodaysPuzzle` answers for a given day (lazily generating and
persisting the puzzle if needed), any later call that day returns the very
same puzzle (in particular the same id) and leaves the store unchanged. -/
theorem getTodaysPuzzle_idempotent (todayStr : String)
    (shuffle shuffle2 : List SecretWordRow → List SecretWordRow)
    (r1 r2 r3 r4 q1 q2 q3 q4 : Nat) (db db2 : DB) (p : DailyPuzzleData)
    (h : getTodaysPuzzle todayStr shuffle r1 r2 r3 r4 db = Except.ok (some p, db2)) :
    getTodaysPuzzle todayStr shuffle2 q1 q2 q3 q4 db2 = Except.ok (some p, db2) := by
  unfold getTodaysPuzzle at h ⊢
  cases hf : findPuzzleByDate db todayStr with
  | some row =>
    rw [hf] at h
    cases h
    rw [hf]
  | none =>
    rw [hf] at h
    cases hg : generateDailyPuzzle todayStr shuffle r1 r2 r3 r4 db with
    | error e => rw [hg] at h; exact absurd h (by simp)
    | ok res =>
      rw [hg] at h
      cases h
      have hd := generateDailyPuzzle_ok todayStr shuffle r1 r2 r3 r4 db res hg
      have hfind : findPuzzleByDate res.db todayStr = some res.puzzle := by
        unfold findPuzzleByDate at hf ⊢
        rw [hd.2, List.find?_append, hf]
        simp [hd.1]
      rw [hfind]

/-- One game state built by the shared accessor tail hides the secret word
while the game is in progress. -/
theorem gameStateOf_secret (ug : UserGame) (lk : Option String)
    (h : (gameStateOf ug lk).completed = false) :
    (gameStateOf ug lk).secretWord = none := by
  have hug : ug.completed = false := h
  simp [gameStateOf, hug]

/-- C8: every `GameState` returned by `initializeGame`, `getUserGameState`
or `submitGuess` carries a secret word only once completed: with
`completed = false` the `secretWord` field is absent. -/
theorem secretWord_absent_in_progress
    (existing : Option UserGame) (newId : Nat) (puzzle : DailyPuzzleData)
    (secretLookup : Option String) (sessionId : Option Nat)
    (guess : String) (skipV : Bool) (wordListMem dictMem : String → Bool)
    (s : UserGame) (secretRaw : String) :
    (∀ gs ∈ initializeGame existing newId puzzle secretLookup,
      gs.completed = false → gs.secretWord = none) ∧
    (∀ gs ∈ getUserGameState sessionId existing secretLookup,
      gs.completed = false → gs.secretWord = none) ∧
    (∀ gs ∈ (submitGuess guess skipV wordListMem dictMem s secretRaw).1.newState,
      gs.completed = false → gs.secretWord = none) := by
  refine ⟨?_, ?_, ?_⟩
  · intro gs hgs hcomp
    simp only [initializeGame, Option.mem_def, Option.some.injEq] at hgs
    subst hgs
    exact gameStateOf_secret _ _ hcomp
  · intro gs hgs hcomp
    cases sessionId with
    | none => simp [getUserGameState] at hgs
    | some sid =>
      cases existing with
      | none => simp [getUserGameState] at hgs
      | some ug =>
        simp only [getUserGameState, Option.mem_def, Option.some.injEq] at hgs
        subst hgs
        exact gameStateOf_secret _ _ hcomp
  · intro gs hgs hcomp
    simp only [submitGuess] at hgs
    split_ifs at hgs <;> simp only [Option.mem_def, Option.some.injEq] at hgs
    all_goals first
      | exact absurd hgs (by simp)
      | (subst hgs; first | rfl | (exact absurd hcomp (by simp)))

theorem ne_nil_of_isEmpty_eq_false {l : List α} (h : l.isEmpty = false) : l ≠ [] := by
  intro he
  subst he
  simp at h

/-- Whatever branch it takes and whatever the random draws, `findBracketWord`
returns one of the candidate words it was given. -/
theorem findBracketWord_mem (c : Char) (words : List String) (before : Bool)
    (rA rB : Nat) (hw : words ≠ []) :
    findBracketWord c words before rA rB ∈ words := by
  simp only [findBracketWord]
  split_ifs with h1 h2
  · have hsel := randPick_mem _ (Char.ofNat 0) rA (ne_nil_of_isEmpty_eq_false h1)
    have hgrp := (List.mem_filter.mp hsel).2
    have hgne : wordsWithFirst words
        (randPick ((targetLetters c.toNat before).filter
          fun d => !(wordsWithFirst words d).isEmpty) (Char.ofNat 0) rA) ≠ [] := by
      intro he
      rw [he] at hgrp
      simp at hgrp
    exact List.mem_of_mem_filter (randPick_mem _ _ rB hgne)
  · have hsel := randPick_mem _ (Char.ofNat 0) rA (ne_nil_of_isEmpty_eq_false h2)
    have hkey := List.mem_of_mem_filter hsel
    rw [mem_mapKeys] at hkey
    obtain ⟨w, hwmem, hwc⟩ := List.mem_map.mp hkey
    have hgne : wordsWithFirst words
        (randPick ((mapKeys (words.map firstChar)).filter
          fun d => decide (d ≠ c)) (Char.ofNat 0) rA) ≠ [] := by
      intro he
      have hwin : w ∈ wordsWithFirst words
          (randPick ((mapKeys (words.map firstChar)).filter
            fun d => decide (d ≠ c)) (Char.ofNat 0) rA) :=
        List.mem_filter.mpr ⟨hwmem, by simp [hwc]⟩
      rw [he] at hwin
      simp at hwin
    exact List.mem_of_mem_filter (randPick_mem _ _ rB hgne)
  · have hlen : 0 < words.length := List.length_pos.mpr hw
    have hmin : 0 < min words.length 100 := by omega
    have hidx : rA % min words.length 100 < words.length :=
      lt_of_lt_of_le (Nat.mod_lt _ hmin) (min_le_left _ _)
    rw [List.getD_eq_getElem _ _ hidx]
    exact List.getElem_mem _

/-- C6: every puzzle the generator produces brackets its secret word
strictly, whichever branch or fallback `findBracketWord` takes and whatever
the random draws. -/
theorem generateDailyPuzzle_brackets (dateStr : String)
    (shuffle : List SecretWordRow → List SecretWordRow) (r1 r2 r3 r4 : Nat)
    (db : DB) (res : GenResult)
    (h : generateDailyPuzzle dateStr shuffle r1 r2 r3 r4 db = Except.ok res) :
    strLt res.puzzle.topWord res.secret.word ∧
    strLt res.secret.word res.puzzle.bottomWord := by
  simp only [generateDailyPuzzle] at h
  split at h
  · exact absurd h (by simp)
  · split at h
    · exact absurd h (by simp)
    · next sw heq =>
      have hok := List.find?_some heq
      have hlen := by
        simpa only [candidateOk, Bool.and_eq_true, decide_eq_true_eq] using hok
      cases h
      constructor
      · exact mem_topWordsFor (findBracketWord_mem _ _ _ _ _
          (by
            intro he
            rw [he] at hlen
            simp at hlen))
      · exact mem_bottomWordsFor (findBracketWord_mem _ _ _ _ _
          (by
            intro he
            rw [he] at hlen
            simp at hlen))

/-- C7 (as stated) fails: with no stored puzzle for the day and no unused
secret word, `getTodaysPuzzle` returns no `{success:false}` value and no
`null`: the generation `throw` escapes to the caller. -/
theorem getTodaysPuzzle_throws_counterexample :
    getTodaysPuzzle "2026-10-11" (fun l => l) 0 0 0 0
      { secretWords := [], dictionary := [], dailyPuzzles := [], nextPuzzleId := 0 } =
    Except.error "No unused secret words available" := rfl

/-- C7 amended: the generation exception is the only one; once the day's
puzzle row is stored, `getTodaysPuzzle` returns normally. -/
theorem getTodaysPuzzle_no_throw_when_stored (todayStr : String)
    (shuffle : List SecretWordRow → List SecretWordRow) (r1 r2 r3 r4 : Nat)
    (db : DB) (row : DailyPuzzleRow)
    (h : findPuzzleByDate db todayStr = some row) :
    getTodaysPuzzle todayStr shuffle r1 r2 r3 r4 db =
      Except.ok (some (puzzleData row), db) := by
  unfold getTodaysPuzzle
  rw [h]

/-- A stored puzzle row for the witness day. -/
def demoStoredRow : DailyPuzzleRow :=
  { id := 7, date := "2026-10-11", topWord := "apple", bottomWord := "chair",
    secretWordId := 3 }

/-- A store that already holds the witness day's puzzle. -/
def demoStoredDb : DB :=
  { secretWords := [], dictionary := [], dailyPuzzles := [demoStoredRow],
    nextPuzzleId := 8 }

theorem getTodaysPuzzle_no_throw_witness :
    getTodaysPuzzle "2026-10-11" (fun l => l) 0 0 0 0 demoStoredDb =
      Except.ok (some (puzzleData demoStoredRow), demoStoredDb) :=
  getTodaysPuzzle_no_throw_when_stored "2026-10-11" (fun l => l) 0 0 0 0
    demoStoredDb demoStoredRow rfl

theorem getTodaysPuzzle_idempotent_witness :
    getTodaysPuzzle "2026-10-11" (fun l => l) 1 2 3 4 demoStoredDb =
      Except.ok (some (puzzleData demoStoredRow), demoStoredDb) :=
  getTodaysPuzzle_idempotent "2026-10-11" (fun l => l) (fun l => l) 0 0 0 0 1 2 3 4
    demoStoredDb demoStoredDb (puzzleData demoStoredRow) rfl

theorem secretWord_absent_in_progress_witness :
    (gameStateOf (initialUserGame 1 demoPuzzle) (some "bingo")).secretWord = none :=
  (secretWord_absent_in_progress none 1 demoPuzzle (some "bingo") none "cabin" false
      noWords demoDictMem demoGame "bingo").1
    (gameStateOf (initialUserGame 1 demoPuzzle) (some "bingo")) rfl rfl

/-- A dictionary with 100 words on each side of "mango", listed in the order
the store's `ORDER BY` would return them. -/
def demoGenDict : List String :=
  ((List.range 100).map fun i =>
    String.mk ['a', 'a', 'a', Char.ofNat (97 + (99 - i) / 10),
      Char.ofNat (97 + (99 - i) % 10)]) ++
  ((List.range 100).map fun i =>
    String.mk ['z', 'a', 'a', Char.ofNat (97 + i / 10), Char.ofNat (97 + i % 10)])

/-- A store whose only unused secret word is "mango". -/
def demoGenDb : DB :=
  { secretWords := [{ id := 1, word := "mango", used := false }],
    dictionary := demoGenDict, dailyPuzzles := [], nextPuzzleId := 1 }

/-- The generation run of the witness. -/
def demoGenResult : GenResult :=
  match generateDailyPuzzle "2026-10-11" (fun l => l) 0 0 0 0 demoGenDb with
  | Except.ok res => res
  | Except.error _ =>
    { secret := { id := 0, word := "", used := false },
      puzzle := { id := 0, date := "", topWord := "", bottomWord := "", secretWordId := 0 },
      db := demoGenDb }

set_option maxRecDepth 8000 in
theorem generateDailyPuzzle_brackets_witness :
    strLt demoGenResult.puzzle.topWord demoGenResult.secret.word ∧
    strLt demoGenResult.secret.word demoGenResult.puzzle.bottomWord :=
  generateDailyPuzzle_brackets "2026-10-11" (fun l => l) 0 0 0 0 demoGenDb
    demoGenResult rfl

end WordGame
